import Mathlib

/-!
Shallow embedding of the saga-go orchestration library: the data model
(types.go), the reference in-memory storage (storage.go, MemoryStorage) and
pub/sub (MemoryPubSub), the orchestrator state machine (orchestrator.go),
the builder (builder.go) and the recovery scan (RecoveryManager).

Modelling choices: identifier generation (google/uuid) is modelled by a
counter of opaque numeric ids threaded through the world state; wall-clock
time is modelled by an integer `now` passed to each operation; Go maps are
modelled as association lists with `aget` / `upsert`; the `interface` values
held in the user data maps are modelled as strings.  The in-Go aliasing
between a stored saga and the saga pointer held by the orchestrator is made
explicit: every storage write that Go performs through a shared pointer is
re-applied to the local copy.
-/

namespace SagaGo

/-- Step and saga status (types.go, `Status`). -/
inductive Status where
  | pending
  | processing
  | completed
  | failed
  | compensated
deriving DecidableEq

/-- User data map `map[string]interface` with values modelled as strings. -/
abbrev DataMap := List (String × String)

/-- Go map read. -/
def aget [DecidableEq α] (k : α) : List (α × β) → Option β
  | [] => none
  | p :: rest => if p.1 = k then some p.2 else aget k rest

/-- Go map write (replace the binding if present, else append). -/
def upsert [DecidableEq α] (k : α) (v : β) : List (α × β) → List (α × β)
  | [] => [(k, v)]
  | p :: rest => if p.1 = k then (k, v) :: rest else p :: upsert k v rest

/-- Copy every binding of `src` into `dst` (the Go `for k, v := range src` copy loop). -/
def mergeInto (dst src : DataMap) : DataMap :=
  src.foldl (fun d kv => upsert kv.1 kv.2 d) dst

/-- One unit of work in a saga (types.go, `Step`). -/
structure Step where
  id : Nat
  sagaID : Nat
  name : String
  status : Status
  data : DataMap
  error : String
  startedAt : Option Int
  createdAt : Int
  updatedAt : Int
deriving DecidableEq

/-- A saga transaction (types.go, `Saga`). -/
structure Saga where
  id : Nat
  name : String
  status : Status
  steps : List Step
  data : DataMap
  error : String
  createdAt : Int
  updatedAt : Int
deriving DecidableEq

/-- Pub/sub envelope (types.go, `Message`); `mtype` models the `Type` field. -/
structure Message where
  mtype : String
  sagaID : Nat
  stepID : Nat
  data : DataMap
deriving DecidableEq

/-- A step handler: forward action and compensating action (types.go,
`StepHandler`).  The forward action either fails with an error text or
returns the (possibly mutated) execution data; compensation mutations are
never persisted by the orchestrator, so only its error is modelled. -/
structure Handler where
  execute : DataMap → Except String DataMap
  compensate : DataMap → Option String

/-- The reference in-memory storage (storage.go, `MemoryStorage`): sagas and
steps keyed by id. -/
structure MemoryStorage where
  sagas : List (Nat × Saga)
  steps : List (Nat × Step)
deriving DecidableEq

/-- Set a step's `createdAt` if zero and stamp `updatedAt` (the per-step
body of `MemoryStorage.SaveSaga`). -/
def touchStep (now : Int) (st : Step) : Step :=
  { st with createdAt := if st.createdAt = 0 then now else st.createdAt,
            updatedAt := now }

/-- storage.go `SaveSaga`: stamp the saga and all its steps, store the saga
under its id and every step under its id.  Returns the stamped saga (Go
mutates the argument in place) together with the new storage. -/
def SaveSaga (now : Int) (saga0 : Saga) (m : MemoryStorage) : Saga × MemoryStorage :=
  let saga : Saga :=
    { saga0 with
      updatedAt := now,
      createdAt := if saga0.createdAt = 0 then now else saga0.createdAt,
      steps := saga0.steps.map (touchStep now) }
  (saga,
   { sagas := upsert saga.id saga m.sagas,
     steps := saga.steps.foldl (fun mp st => upsert st.id st mp) m.steps })

/-- storage.go `GetSaga` (`none` models the "saga not found" error). -/
def GetSaga (id : Nat) (m : MemoryStorage) : Option Saga :=
  aget id m.sagas

/-- Replace the first step whose id matches `st.id` by `st` (the write-back
loop inside `MemoryStorage.UpdateStep`). -/
def replaceFirstStep (st : Step) : List Step → List Step
  | [] => []
  | q :: rest => if q.id = st.id then st :: rest else q :: replaceFirstStep st rest

/-- Propagate an updated step into the owning saga and stamp the saga
(the saga half of `MemoryStorage.UpdateStep`). -/
def updateStepInSaga (now : Int) (st : Step) (s : Saga) : Saga :=
  { s with steps := replaceFirstStep st s.steps, updatedAt := now }

/-- storage.go `UpdateStep`: stamp the step, store it under its id and copy
it into the owning saga's step list when the saga exists.  Returns the
stamped step (Go mutates the argument in place) with the new storage. -/
def UpdateStep (now : Int) (st0 : Step) (m : MemoryStorage) : Step × MemoryStorage :=
  let st := { st0 with updatedAt := now }
  (st,
   { sagas :=
       match aget st.sagaID m.sagas with
       | some s => upsert st.sagaID (updateStepInSaga now st s) m.sagas
       | none => m.sagas,
     steps := upsert st.id st m.steps })

/-- storage.go `GetStep` (`none` models the "step not found" error). -/
def GetStep (id : Nat) (m : MemoryStorage) : Option Step :=
  aget id m.steps

/-- The stuck test applied to one step by `MemoryStorage.GetStuckSteps`:
`Pending` steps whose `updatedAt` is strictly older than `now - timeout`,
`Processing` steps whose `startedAt` is non-null and strictly older. -/
def stuckCond (now timeout : Int) (st : Step) : Bool :=
  match st.status with
  | Status.pending => decide (now - st.updatedAt > timeout)
  | Status.processing =>
    match st.startedAt with
    | some t => decide (now - t > timeout)
    | none => false
  | _ => false

/-- storage.go `GetStuckSteps`: every stored step satisfying `stuckCond`. -/
def GetStuckSteps (now timeout : Int) (m : MemoryStorage) : List Step :=
  (m.steps.map Prod.snd).filter (stuckCond now timeout)

/-- Combined world state: the reference storage plus the log of messages
delivered through the reference pub/sub, plus the uuid counter. -/
structure World where
  store : MemoryStorage
  published : List (String × Message)
  nextID : Nat
deriving DecidableEq

/-- `MemoryPubSub.Publish`: append to the delivery log; always returns nil. -/
def publish (topic : String) (msg : Message) (w : World) : World :=
  { w with published := w.published ++ [(topic, msg)] }

/-- The step records built by the `StartSaga` creation loop, with fresh ids
drawn from the counter starting at `nid`. -/
def mkSteps (now : Int) (sagaID : Nat) (nid : Nat) : List String → List Step
  | [] => []
  | nm :: rest =>
    { id := nid, sagaID := sagaID, name := nm, status := Status.pending,
      data := [], error := "", startedAt := none, createdAt := now,
      updatedAt := now } :: mkSteps now sagaID (nid + 1) rest

/-- orchestrator.go `StartSaga`: build the saga with all steps `Pending`,
persist it, then (when there is a step) publish `step_execute` for step 0 on
`saga_events`.  `SaveSaga` of the reference `MemoryStorage` always returns
nil, so the failure branch of line 59 is unreachable and the returned error
(the first component) is always `none`. -/
def StartSaga (now : Int) (name : String) (stepNames : List String)
    (data : DataMap) (w : World) : Option String × Saga × World :=
  let sagaID := w.nextID
  let saga : Saga :=
    { id := sagaID, name := name, status := Status.pending,
      steps := mkSteps now sagaID (sagaID + 1) stepNames,
      data := data, error := "", createdAt := now, updatedAt := now }
  let sv := SaveSaga now saga w.store
  let w1 : World :=
    { store := sv.2, published := w.published,
      nextID := sagaID + 1 + stepNames.length }
  match sv.1.steps with
  | [] => (none, sv.1, w1)
  | s0 :: _ =>
    (none, sv.1,
     publish "saga_events"
       { mtype := "step_execute", sagaID := sagaID, stepID := s0.id,
         data := data } w1)

/-- The scan of `continueOrComplete`: length of the maximal contiguous
prefix of `Completed` steps (the loop leaves `currentIndex` at this value
minus one). -/
def completedPrefixLen : List Step → Nat
  | [] => 0
  | st :: rest =>
    if st.status = Status.completed then completedPrefixLen rest + 1 else 0

/-- orchestrator.go `continueOrComplete`: publish `step_execute` for the
step after the completed prefix, or mark the saga `Completed` and persist
when every step is completed. -/
def continueOrComplete (now : Int) (saga : Saga) (w : World) : World :=
  if h : completedPrefixLen saga.steps < saga.steps.length then
    publish "saga_events"
      { mtype := "step_execute", sagaID := saga.id,
        stepID := (saga.steps.get ⟨completedPrefixLen saga.steps, h⟩).id,
        data := saga.data } w
  else
    let sv := SaveSaga now { saga with status := Status.completed } w.store
    { w with store := sv.2 }

/-- orchestrator.go `startCompensation`: mark the saga `Failed`, persist,
then walk the step list from the last index down to the first and publish
`step_compensate` for every step currently `Completed`. -/
def startCompensation (now : Int) (saga : Saga) (w : World) : World :=
  let sv := SaveSaga now { saga with status := Status.failed } w.store
  let sagaS := sv.1
  sagaS.steps.reverse.foldl
    (fun acc st =>
      if st.status = Status.completed then
        publish "saga_events"
          { mtype := "step_compensate", sagaID := sagaS.id, stepID := st.id,
            data := sagaS.data } acc
      else acc)
    { w with store := sv.2 }

/-- orchestrator.go `ExecuteStep`: the forward-path transition.  Error
results of `UpdateStep`/`SaveSaga` are not modelled because the reference
`MemoryStorage` never fails on writes (the guards of lines 84 and 95 keep
their read-failure branches).  The write-through of each `UpdateStep` into
the saga pointer shared with storage is re-applied to the local saga copy
(`updateStepInSaga`). -/
def ExecuteStep (handlers : List (String × Handler)) (now : Int)
    (stepID : Nat) (w : World) : Option String × World :=
  match GetStep stepID w.store with
  | none => (some "failed to get step: step not found", w)
  | some step =>
    if step.status ≠ Status.pending then (none, w)
    else
      match aget step.name handlers with
      | none => (some ("no handler for step: " ++ step.name), w)
      | some handler =>
        let up := UpdateStep now
          { step with status := Status.processing, startedAt := some now }
          w.store
        let stepP := up.1
        match GetSaga step.sagaID up.2 with
        | none => (some "failed to get saga: saga not found", { w with store := up.2 })
        | some saga =>
          let execData := mergeInto (mergeInto [] saga.data) stepP.data
          match handler.execute execData with
          | Except.error err =>
            let up2 := UpdateStep now
              { stepP with status := Status.failed, error := err } up.2
            (none,
             startCompensation now (updateStepInSaga now up2.1 saga)
               { w with store := up2.2 })
          | Except.ok execData2 =>
            let up2 := UpdateStep now
              { stepP with status := Status.completed, data := execData2 } up.2
            let saga2 := updateStepInSaga now up2.1 saga
            let sv := SaveSaga now
              { saga2 with data := mergeInto saga2.data execData2 } up2.2
            (none, continueOrComplete now sv.1 { w with store := sv.2 })

/-- orchestrator.go `CompensateStep`: the reverse-path transition.  On a
compensation error the error text is recorded on the step; the step is
marked `Compensated` in either case and persisted. -/
def CompensateStep (handlers : List (String × Handler)) (now : Int)
    (stepID : Nat) (w : World) : Option String × World :=
  match GetStep stepID w.store with
  | none => (some "failed to get step: step not found", w)
  | some step =>
    if step.status ≠ Status.completed then (none, w)
    else
      match aget step.name handlers with
      | none => (some ("no handler for step: " ++ step.name), w)
      | some handler =>
        match GetSaga step.sagaID w.store with
        | none => (some "failed to get saga: saga not found", w)
        | some saga =>
          let execData := mergeInto (mergeInto [] saga.data) step.data
          let step1 :=
            match handler.compensate execData with
            | some err => { step with error := err }
            | none => step
          let up := UpdateStep now { step1 with status := Status.compensated } w.store
          (none, { w with store := up.2 })

/-- builder.go `Builder`: saga name, the added steps (name with inline
handler) and the accumulated data. -/
structure Builder where
  name : String
  steps : List (String × Handler)
  data : DataMap

/-- builder.go `Builder.Execute`: reject a saga with no steps, otherwise
register every handler (last registration wins) and start the saga.
Returns the orchestrator's handler registry after registration. -/
def BuilderExecute (b : Builder) (handlers : List (String × Handler))
    (now : Int) (w : World) :
    Option String × Option Saga × List (String × Handler) × World :=
  if b.steps.length = 0 then
    (some "saga must have at least one step", none, handlers, w)
  else
    let handlers2 := b.steps.foldl (fun hs p => upsert p.1 p.2 hs) handlers
    let r := StartSaga now b.name (b.steps.map Prod.fst) b.data w
    (r.1, some r.2.1, handlers2, r.2.2)

/-- The `step_execute` message republished by the recovery scan for one
stuck step (no payload data is set). -/
def recoverMsg (st : Step) : Message :=
  { mtype := "step_execute", sagaID := st.sagaID, stepID := st.id, data := [] }

/-- One iteration of the `recoverStuckSteps` loop: reset a `Processing`
step to `Pending` with `startedAt` cleared and persist it, then attempt to
republish `step_execute`.  `pubErr` models the result of `PubSub.Publish`;
a failure is only logged, so it never interrupts the loop, and the failed
message simply does not reach the delivery log. -/
def recoverOne (pubErr : Message → Option String) (now : Int)
    (acc : MemoryStorage × List (String × Message)) (st : Step) :
    MemoryStorage × List (String × Message) :=
  let m :=
    if st.status = Status.processing then
      (UpdateStep now { st with status := Status.pending, startedAt := none } acc.1).2
    else acc.1
  match pubErr (recoverMsg st) with
  | some _ => (m, acc.2)
  | none => (m, acc.2 ++ [("saga_events", recoverMsg st)])

/-- storage.go `RecoveryManager.recoverStuckSteps` (one tick): query the
stuck steps and process each in turn.  The reference `MemoryPubSub.Publish`
always succeeds, which corresponds to `pubErr = fun _ => none`. -/
def recoverStuckSteps (pubErr : Message → Option String) (now timeout : Int)
    (w : World) : World :=
  let r := (GetStuckSteps now timeout w.store).foldl (recoverOne pubErr now)
    (w.store, [])
  { w with store := r.1, published := w.published ++ r.2 }

/-- The cumulative storage effect of one recovery tick: fold the
`Processing`-to-`Pending` resets of the scan loop over the stuck list
(the loop's only storage writes). -/
def resetStuck (now : Int) (l : List Step) (m : MemoryStorage) : MemoryStorage :=
  l.foldl
    (fun mm st =>
      if st.status = Status.processing then
        (UpdateStep now
          { st with status := Status.pending, startedAt := none } mm).2
      else mm) m

/-- The topic-message pair published by `startCompensation` for one
completed step of a saga with id `sid` and data `sdata`. -/
def compMsg (sid : Nat) (sdata : DataMap) (st : Step) : String × Message :=
  ("saga_events",
   { mtype := "step_compensate", sagaID := sid, stepID := st.id,
     data := sdata })

/-- Concrete pending step with no registered handler (witness fixture). -/
def stepNoHandlerA : Step :=
  { id := 1, sagaID := 10, name := "a", status := Status.pending,
    data := [], error := "", startedAt := none, createdAt := 1,
    updatedAt := 1 }

/-- Concrete completed step with no registered handler (witness fixture). -/
def stepNoHandlerB : Step :=
  { id := 2, sagaID := 10, name := "b", status := Status.completed,
    data := [], error := "", startedAt := some 1, createdAt := 1,
    updatedAt := 1 }

/-- World holding `stepNoHandlerA` (witness fixture). -/
def worldNoHandlerA : World :=
  { store := { sagas := [], steps := [(1, stepNoHandlerA)] },
    published := [], nextID := 0 }

/-- World holding `stepNoHandlerB` (witness fixture). -/
def worldNoHandlerB : World :=
  { store := { sagas := [], steps := [(2, stepNoHandlerB)] },
    published := [], nextID := 0 }


/-- Completed step with a handler (witness fixture for compensation). -/
def stepCompW : Step :=
  { id := 2, sagaID := 10, name := "b", status := Status.completed,
    data := [], error := "", startedAt := some 1, createdAt := 1,
    updatedAt := 1 }

/-- Saga owning `stepCompW` (witness fixture). -/
def sagaCompW : Saga :=
  { id := 10, name := "order", status := Status.pending,
    steps := [stepCompW], data := [("k", "v")], error := "", createdAt := 1,
    updatedAt := 1 }

/-- World holding `sagaCompW` and `stepCompW` (witness fixture). -/
def worldCompW : World :=
  { store := { sagas := [(10, sagaCompW)], steps := [(2, stepCompW)] },
    published := [], nextID := 20 }

/-- Handler whose compensation fails with the text "cerr" (witness
fixture). -/
def handlerCompW : Handler :=
  { execute := fun d => Except.ok d, compensate := fun _ => some "cerr" }


/-- The failed-step record written back by the forward error path of
`ExecuteStep` (status `Failed`, handler error recorded, `startedAt` and
`updatedAt` stamped by the surrounding transitions). -/
def failedStep (now : Int) (err : String) (st : Step) : Step :=
  { st with status := Status.failed, error := err, startedAt := some now, updatedAt := now }

/-- Pending step whose handler will fail (witness fixture for the forward
error path). -/
def stepExecW : Step :=
  { id := 1, sagaID := 10, name := "a", status := Status.pending,
    data := [], error := "", startedAt := none, createdAt := 1,
    updatedAt := 1 }

/-- Completed predecessor step (witness fixture). -/
def stepDoneW : Step :=
  { id := 2, sagaID := 10, name := "b", status := Status.completed,
    data := [], error := "", startedAt := some 1, createdAt := 1,
    updatedAt := 1 }

/-- Saga with one completed and one pending step (witness fixture). -/
def sagaExecW : Saga :=
  { id := 10, name := "order", status := Status.pending,
    steps := [stepDoneW, stepExecW], data := [("k", "v")], error := "",
    createdAt := 1, updatedAt := 1 }

/-- World for the forward error path (witness fixture). -/
def worldExecW : World :=
  { store :=
      { sagas := [(10, sagaExecW)],
        steps := [(2, stepDoneW), (1, stepExecW)] },
    published := [], nextID := 20 }

/-- Handler whose forward action fails with "boom" (witness fixture). -/
def handlerFailW : Handler :=
  { execute := fun _ => Except.error "boom", compensate := fun _ => none }

/-- Invariant: every saga stored in the given storage has an empty
saga-level error field. -/
def sagasErrorEmpty (m : MemoryStorage) : Prop :=
  ∀ p ∈ m.sagas, (p.2 : Saga).error = ""

/-! ### Association-list (Go map) lemmas -/

theorem aget_upsert_self [DecidableEq α] (k : α) (v : β) (l : List (α × β)) :
    aget k (upsert k v l) = some v := by
  induction l with
  | nil => simp [upsert, aget]
  | cons p rest ih =>
    by_cases h : p.1 = k
    · simp [upsert, h, aget]
    · simp [upsert, h, aget, ih]

theorem aget_upsert_ne [DecidableEq α] {k k' : α} (v : β) (l : List (α × β))
    (h : k ≠ k') : aget k' (upsert k v l) = aget k' l := by
  induction l with
  | nil => simp [upsert, aget, h]
  | cons p rest ih =>
    by_cases hp : p.1 = k
    · subst hp
      simp [upsert, aget, h]
    · simp [upsert, hp, aget, ih]

theorem aget_mem [DecidableEq α] {k : α} {v : β} {l : List (α × β)}
    (h : aget k l = some v) : (k, v) ∈ l := by
  induction l with
  | nil => simp [aget] at h
  | cons p rest ih =>
    by_cases hp : p.1 = k
    · cases p
      simp_all [aget]
    · simp [aget, hp] at h
      exact List.mem_cons_of_mem _ (ih h)

theorem upsert_forall [DecidableEq α] {P : α × β → Prop} {l : List (α × β)}
    (k : α) (v : β) (hl : ∀ p ∈ l, P p) (hv : P (k, v)) :
    ∀ p ∈ upsert k v l, P p := by
  induction l with
  | nil => simpa [upsert] using hv
  | cons q rest ih =>
    by_cases hq : q.1 = k
    · intro p hp
      rw [upsert] at hp
      simp only [hq, if_pos rfl] at hp
      rcases List.mem_cons.mp hp with h | h
      · exact h ▸ hv
      · exact hl p (List.mem_cons_of_mem _ h)
    · intro p hp
      rw [upsert] at hp
      simp only [hq, if_neg hq] at hp
      rcases List.mem_cons.mp hp with h | h
      · exact h ▸ hl q (List.mem_cons_self _ _)
      · exact ih (fun p hp => hl p (List.mem_cons_of_mem _ hp)) p h

/-! ### replaceFirstStep lemmas -/

theorem replaceFirstStep_map_id (st : Step) (l : List Step) :
    (replaceFirstStep st l).map Step.id = l.map Step.id := by
  induction l with
  | nil => rfl
  | cons q rest ih =>
    by_cases h : q.id = st.id
    · simp [replaceFirstStep, h]
    · simp [replaceFirstStep, h, ih]

theorem replaceFirstStep_mem {st : Step} {l : List Step}
    (h : ∃ q ∈ l, q.id = st.id) : st ∈ replaceFirstStep st l := by
  induction l with
  | nil => simp at h
  | cons q rest ih =>
    by_cases hq : q.id = st.id
    · simp [replaceFirstStep, hq]
    · rcases h with ⟨q', hq', hid⟩
      rcases List.mem_cons.mp hq' with h1 | h1
      · exact absurd (h1 ▸ hid) hq
      · simp only [replaceFirstStep, if_neg hq]
        exact List.mem_cons_of_mem _ (ih ⟨q', h1, hid⟩)

theorem replaceFirstStep_collapse {a b : Step} (l : List Step)
    (h : a.id = b.id) :
    replaceFirstStep a (replaceFirstStep b l) = replaceFirstStep a l := by
  induction l with
  | nil => rfl
  | cons q rest ih =>
    by_cases hq : q.id = b.id
    · have hqa : q.id = a.id := hq.trans h.symm
      have hba : b.id = a.id := h.symm
      simp [replaceFirstStep, hq, hqa, hba]
    · have hq' : ¬ q.id = a.id := fun hc => hq (hc.trans h)
      simp [replaceFirstStep, hq, hq', ih]

theorem replaceFirstStep_id_unique {st : Step} {l : List Step}
    (hnd : (l.map Step.id).Nodup) :
    ∀ q ∈ replaceFirstStep st l, q.id = st.id → q = st := by
  induction l with
  | nil => simp [replaceFirstStep]
  | cons p rest ih =>
    by_cases hp : p.id = st.id
    · simp only [replaceFirstStep, if_pos hp]
      intro q hq hqid
      rcases List.mem_cons.mp hq with h1 | h1
      · exact h1
      · exfalso
        have : st.id ∈ rest.map Step.id := hqid ▸ List.mem_map_of_mem Step.id h1
        exact (List.nodup_cons.mp hnd).1 (hp ▸ this)
    · simp only [replaceFirstStep, if_neg hp]
      intro q hq hqid
      rcases List.mem_cons.mp hq with h1 | h1
      · exact absurd (h1 ▸ hqid) hp
      · exact ih (List.nodup_cons.mp hnd).2 q h1 hqid

/-! ### completedPrefixLen lemmas -/

theorem completedPrefixLen_le (l : List Step) :
    completedPrefixLen l ≤ l.length := by
  induction l with
  | nil => simp [completedPrefixLen]
  | cons st rest ih =>
    by_cases h : st.status = Status.completed
    · simpa [completedPrefixLen, h] using ih
    · simp [completedPrefixLen, h]

theorem completedPrefixLen_forall_completed (l : List Step) :
    ∀ i (_ : i < completedPrefixLen l) (hl : i < l.length),
      (l.get ⟨i, hl⟩).status = Status.completed := by
  induction l with
  | nil => intro i hi hl; simp at hl
  | cons st rest ih =>
    intro i hi hl
    by_cases h : st.status = Status.completed
    · cases i with
      | zero => simpa using h
      | succ j =>
        simp only [completedPrefixLen, if_pos h] at hi
        exact ih j (Nat.lt_of_succ_lt_succ hi) (Nat.lt_of_succ_lt_succ hl)
    · simp [completedPrefixLen, h] at hi

theorem completedPrefixLen_stop (l : List Step) :
    ∀ hl : completedPrefixLen l < l.length,
      (l.get ⟨completedPrefixLen l, hl⟩).status ≠ Status.completed := by
  induction l with
  | nil => intro hl; simp [completedPrefixLen] at hl
  | cons st rest ih =>
    intro hl
    by_cases h : st.status = Status.completed
    · simp only [completedPrefixLen, if_pos h] at hl ⊢
      exact ih (Nat.lt_of_succ_lt_succ hl)
    · simp [completedPrefixLen, h]

/-! ### Lemmas about the step write-back folds of SaveSaga -/

theorem foldl_upsert_aget_ne (k : Nat) (l : List Step) (m : List (Nat × Step))
    (h : ∀ q ∈ l, q.id ≠ k) :
    aget k (l.foldl (fun mp st => upsert st.id st mp) m) = aget k m := by
  induction l generalizing m with
  | nil => rfl
  | cons q rest ih =>
    simp only [List.foldl_cons]
    rw [ih _ (fun p hp => h p (List.mem_cons_of_mem _ hp))]
    exact aget_upsert_ne _ _ (h q (List.mem_cons_self _ _))

theorem foldl_upsert_aget_mem {st : Step} {l : List Step}
    (m : List (Nat × Step)) (hnd : (l.map Step.id).Nodup) (hm : st ∈ l) :
    aget st.id (l.foldl (fun mp st => upsert st.id st mp) m) = some st := by
  induction l generalizing m with
  | nil => simp at hm
  | cons q rest ih =>
    simp only [List.foldl_cons]
    rcases List.mem_cons.mp hm with h1 | h1
    · subst h1
      have hrest : ∀ p ∈ rest, p.id ≠ st.id := by
        intro p hp hc
        exact (List.nodup_cons.mp hnd).1 (hc ▸ List.mem_map_of_mem Step.id hp)
      rw [foldl_upsert_aget_ne _ _ _ hrest]
      exact aget_upsert_self _ _ _
    · exact ih _ (List.nodup_cons.mp hnd).2 h1

/-! ### touchStep projection lemmas -/

theorem touchStep_id (now : Int) (st : Step) : (touchStep now st).id = st.id := rfl

theorem touchStep_status (now : Int) (st : Step) :
    (touchStep now st).status = st.status := rfl

theorem filter_status_map_touch (now : Int) (p : Status) (l : List Step) :
    (l.map (touchStep now)).filter (fun st => st.status = p) =
      (l.filter (fun st => st.status = p)).map (touchStep now) := by
  induction l with
  | nil => rfl
  | cons q rest ih =>
    by_cases h : q.status = p
    · simp [List.filter_cons, touchStep_status, h, ih]
    · simp [List.filter_cons, touchStep_status, h, ih]

/-! ### The publish loop of startCompensation -/


theorem foldl_publishCompleted (sid : Nat) (sdata : DataMap) (l : List Step)
    (w : World) :
    l.foldl
      (fun acc st =>
        if st.status = Status.completed then
          publish "saga_events"
            { mtype := "step_compensate", sagaID := sid, stepID := st.id,
              data := sdata } acc
        else acc) w =
    { w with
      published :=
        w.published ++
          (l.filter (fun st => st.status = Status.completed)).map
            (compMsg sid sdata) } := by
  induction l generalizing w with
  | nil => simp
  | cons q rest ih =>
    by_cases h : q.status = Status.completed
    · rw [List.foldl_cons, ih]
      simp [publish, compMsg, List.filter_cons, h]
    · rw [List.foldl_cons, ih]
      simp [List.filter_cons, h]

/-! ### Storage read-after-write lemmas -/

theorem GetSaga_UpdateStep_self {m : MemoryStorage} {s : Saga} (now : Int)
    (st0 : Step) (h : aget st0.sagaID m.sagas = some s) :
    GetSaga st0.sagaID (UpdateStep now st0 m).2 =
      some (updateStepInSaga now { st0 with updatedAt := now } s) := by
  simp only [UpdateStep, GetSaga]
  rw [show ({ st0 with updatedAt := now } : Step).sagaID = st0.sagaID from rfl, h]
  exact aget_upsert_self _ _ _

theorem stuckCond_iff (now timeout : Int) (st : Step) :
    stuckCond now timeout st = true ↔
      ((st.status = Status.pending ∧ now - st.updatedAt > timeout) ∨
       (st.status = Status.processing ∧
         ∃ t, st.startedAt = some t ∧ now - t > timeout)) := by
  cases hs : st.status <;> cases ha : st.startedAt <;>
    simp [stuckCond, hs, ha]

/-! ### Claim theorems -/

/-- C3: `ExecuteStep` on a step whose status is not `Pending` returns nil,
leaves the step, its saga and everything else in storage untouched and
publishes no message; consequently a second delivery of the same
`step_execute` message, arriving after the first delivery completed the
step, leaves the state exactly as the first delivery left it. -/
theorem executeStep_nonPending_noop
    (handlers handlers2 : List (String × Handler)) (now now2 : Int)
    (stepID : Nat) (w : World) (st : Step)
    (hst : GetStep stepID w.store = some st)
    (hns : st.status ≠ Status.pending) :
    ExecuteStep handlers now stepID w = (none, w) ∧
    (∀ e w1, ExecuteStep handlers now stepID w = (e, w1) →
      ∀ st1, GetStep stepID w1.store = some st1 →
        st1.status = Status.completed →
        ExecuteStep handlers2 now2 stepID w1 = (none, w1)) := by
  have base : ∀ (hs : List (String × Handler)) (n : Int) (w' : World) (st' : Step),
      GetStep stepID w'.store = some st' → st'.status ≠ Status.pending →
      ExecuteStep hs n stepID w' = (none, w') := by
    intro hs n w' st' h1 h2
    simp [ExecuteStep, h1, h2]
  refine ⟨base handlers now w st hst hns, ?_⟩
  intro e w1 _ st1 h1 h2
  exact base handlers2 now2 w1 st1 h1 (by simp [h2])

/-- Witness for `executeStep_nonPending_noop` at a concrete completed step. -/
theorem executeStep_nonPending_noop_witness :
    ExecuteStep [] (5 : Int) 2
      { store :=
          { sagas := [],
            steps := [(2,
              { id := 2, sagaID := 10, name := "b",
                status := Status.completed, data := [], error := "",
                startedAt := some 1, createdAt := 1, updatedAt := 1 })] },
        published := [], nextID := 0 } =
      (none,
        { store :=
            { sagas := [],
              steps := [(2,
                { id := 2, sagaID := 10, name := "b",
                  status := Status.completed, data := [], error := "",
                  startedAt := some 1, createdAt := 1, updatedAt := 1 })] },
          published := [], nextID := 0 }) :=
  (executeStep_nonPending_noop [] [] 5 5 2 _
    { id := 2, sagaID := 10, name := "b", status := Status.completed,
      data := [], error := "", startedAt := some 1, createdAt := 1,
      updatedAt := 1 }
    (by decide) (by decide)).1

/-- C9: a `Pending` step whose name has no registered handler makes
`ExecuteStep` return the "no handler" error with the whole world (storage
and delivery log) unchanged; a `Completed` step whose name has no handler
makes `CompensateStep` return the "no handler" error with the world
unchanged. -/
theorem missingHandler_error
    (handlers : List (String × Handler)) (now now2 : Int)
    (stepID stepID2 : Nat) (w w2 : World) (st st2 : Step) :
    (GetStep stepID w.store = some st → st.status = Status.pending →
      aget st.name handlers = none →
      ExecuteStep handlers now stepID w =
        (some ("no handler for step: " ++ st.name), w)) ∧
    (GetStep stepID2 w2.store = some st2 → st2.status = Status.completed →
      aget st2.name handlers = none →
      CompensateStep handlers now2 stepID2 w2 =
        (some ("no handler for step: " ++ st2.name), w2)) := by
  constructor
  · intro h1 h2 h3
    simp [ExecuteStep, h1, h2, h3]
  · intro h1 h2 h3
    simp [CompensateStep, h1, h2, h3]

/-- Witness for `missingHandler_error` on concrete steps with no handlers. -/
theorem missingHandler_error_witness :
    ExecuteStep [] (5 : Int) 1 worldNoHandlerA =
      (some "no handler for step: a", worldNoHandlerA) ∧
    CompensateStep [] (5 : Int) 2 worldNoHandlerB =
      (some "no handler for step: b", worldNoHandlerB) :=
  ⟨(missingHandler_error [] 5 5 1 2 worldNoHandlerA worldNoHandlerB
      stepNoHandlerA stepNoHandlerB).1 (by decide) (by decide) rfl,
   (missingHandler_error [] 5 5 1 2 worldNoHandlerA worldNoHandlerB
      stepNoHandlerA stepNoHandlerB).2 (by decide) (by decide) rfl⟩

/-- C7: `MemoryStorage.GetStuckSteps` returns exactly the stored steps that
are `Pending` with `updatedAt` strictly older than `now - timeout`, or
`Processing` with a non-null `startedAt` strictly older than
`now - timeout`; steps in any other status are never returned. -/
theorem getStuckSteps_spec (now timeout : Int) (m : MemoryStorage) (st : Step) :
    (st ∈ GetStuckSteps now timeout m ↔
      st ∈ m.steps.map Prod.snd ∧
        ((st.status = Status.pending ∧ now - st.updatedAt > timeout) ∨
         (st.status = Status.processing ∧
           ∃ t, st.startedAt = some t ∧ now - t > timeout))) ∧
    (st ∈ GetStuckSteps now timeout m →
      st.status = Status.pending ∨ st.status = Status.processing) := by
  have hmem : st ∈ GetStuckSteps now timeout m ↔
      st ∈ m.steps.map Prod.snd ∧ stuckCond now timeout st = true := by
    simp [GetStuckSteps, List.mem_filter]
  constructor
  · rw [hmem, stuckCond_iff]
  · intro h
    rcases (stuckCond_iff now timeout st).mp (hmem.mp h).2 with ⟨h1, _⟩ | ⟨h1, _⟩
    · exact Or.inl h1
    · exact Or.inr h1

/-- Witness for `getStuckSteps_spec`: a concrete old pending step is
returned. -/
theorem getStuckSteps_spec_witness :
    ({ id := 1, sagaID := 10, name := "a", status := Status.pending,
       data := [], error := "", startedAt := none, createdAt := 1,
       updatedAt := 1 } : Step) ∈
      GetStuckSteps 100 10
        { sagas := [],
          steps := [(1,
            { id := 1, sagaID := 10, name := "a", status := Status.pending,
              data := [], error := "", startedAt := none, createdAt := 1,
              updatedAt := 1 })] } :=
  (getStuckSteps_spec 100 10 _ _).1.mpr ⟨by decide, Or.inl (by decide)⟩

/-- C2: the continuation scan.  `completedPrefixLen` is one past the
claim's index `k` (so `k = -1` corresponds to `completedPrefixLen = 0`):
every step strictly before it is `Completed`, the step at it (when one
exists) is not `Completed`; when a step at `k+1` exists exactly one
`step_execute` message for it is published and the world's storage (hence
the saga's status) is untouched; otherwise nothing is published and the
saga is persisted with status `Completed`. -/
theorem continueOrComplete_spec (now : Int) (saga : Saga) (w : World) :
    (∀ i (_ : i < completedPrefixLen saga.steps) (hl : i < saga.steps.length),
       (saga.steps.get ⟨i, hl⟩).status = Status.completed) ∧
    (∀ hl : completedPrefixLen saga.steps < saga.steps.length,
       (saga.steps.get ⟨completedPrefixLen saga.steps, hl⟩).status ≠
         Status.completed ∧
       continueOrComplete now saga w =
         publish "saga_events"
           { mtype := "step_execute", sagaID := saga.id,
             stepID := (saga.steps.get
               ⟨completedPrefixLen saga.steps, hl⟩).id,
             data := saga.data } w) ∧
    (¬ completedPrefixLen saga.steps < saga.steps.length →
       (continueOrComplete now saga w).published = w.published ∧
       ∃ sg, GetSaga saga.id (continueOrComplete now saga w).store = some sg ∧
         sg.status = Status.completed ∧ sg.updatedAt = now) := by
  refine ⟨completedPrefixLen_forall_completed _, ?_, ?_⟩
  · intro hl
    refine ⟨completedPrefixLen_stop _ hl, ?_⟩
    rw [continueOrComplete, dif_pos hl]
  · intro hl
    rw [continueOrComplete, dif_neg hl]
    refine ⟨rfl,
      (SaveSaga now { saga with status := Status.completed } w.store).1,
      ?_, rfl, rfl⟩
    exact aget_upsert_self _ _ _

/-! ### mkSteps lemmas (for the StartSaga claims) -/

theorem mkSteps_map_name (now : Int) (sid : Nat) :
    forall (names : List String) (nid : Nat),
      (mkSteps now sid nid names).map Step.name = names := by
  intro names
  induction names with
  | nil => intro nid; rfl
  | cons n rest ih => intro nid; simp [mkSteps, ih]

theorem mkSteps_mem (now : Int) (sid : Nat) :
    forall (names : List String) (nid : Nat) (st : Step),
      st ∈ mkSteps now sid nid names →
      st.status = Status.pending ∧ st.data = [] ∧ st.sagaID = sid ∧
        nid ≤ st.id := by
  intro names
  induction names with
  | nil => intro nid st h; simp [mkSteps] at h
  | cons n rest ih =>
    intro nid st h
    rcases List.mem_cons.mp h with h1 | h1
    · subst h1
      exact ⟨rfl, rfl, rfl, le_refl _⟩
    · have h2 := ih (nid + 1) st h1
      exact ⟨h2.1, h2.2.1, h2.2.2.1, le_trans (Nat.le_succ _) h2.2.2.2⟩

theorem mkSteps_id_nodup (now : Int) (sid : Nat) :
    forall (names : List String) (nid : Nat),
      ((mkSteps now sid nid names).map Step.id).Nodup := by
  intro names
  induction names with
  | nil => intro nid; simp [mkSteps]
  | cons n rest ih =>
    intro nid
    simp only [mkSteps, List.map_cons]
    rw [List.nodup_cons]
    refine ⟨?_, ih (nid + 1)⟩
    intro hmem
    rcases List.mem_map.mp hmem with ⟨st, hst, hid⟩
    have hle := (mkSteps_mem now sid rest (nid + 1) st hst).2.2.2
    rw [hid] at hle
    exact Nat.not_succ_le_self nid hle

/-- C5: `CompensateStep` on a `Completed` step with a registered handler
invokes the compensation action and marks the step `Compensated` and
persists it whether or not the action errored; an error text is recorded
on the step's error field; on a step whose status is not `Completed` it
returns nil and changes nothing. -/
theorem compensateStep_spec
    (handlers : List (String × Handler)) (now : Int) (stepID : Nat)
    (w : World) (st : Step)
    (hst : GetStep stepID w.store = some st) :
    (st.status ≠ Status.completed →
      CompensateStep handlers now stepID w = (none, w)) ∧
    (∀ h saga, st.status = Status.completed → st.id = stepID →
      aget st.name handlers = some h →
      GetSaga st.sagaID w.store = some saga →
      (CompensateStep handlers now stepID w).1 = none ∧
      ∃ stF, GetStep stepID
          (CompensateStep handlers now stepID w).2.store = some stF ∧
        stF.status = Status.compensated ∧ stF.updatedAt = now ∧
        stF.error =
          (match h.compensate (mergeInto (mergeInto [] saga.data) st.data) with
           | some er => er
           | none => st.error)) := by
  constructor
  · intro hne
    simp [CompensateStep, hst, hne]
  · intro h saga hc hid hh hsg
    rcases hcp : h.compensate (mergeInto (mergeInto [] saga.data) st.data)
      with _ | er
    · have hred : CompensateStep handlers now stepID w =
          (none, { w with store :=
            (UpdateStep now { st with status := Status.compensated }
              w.store).2 }) := by
        simp [CompensateStep, hst, hc, hh, hsg, hcp]
      rw [hred]
      refine ⟨rfl, { st with status := Status.compensated, updatedAt := now }, ?_, rfl, rfl, rfl⟩
      show aget stepID _ = _
      rw [← hid]
      exact aget_upsert_self _ _ _
    · have hred : CompensateStep handlers now stepID w =
          (none, { w with store :=
            (UpdateStep now
              { st with error := er, status := Status.compensated }
              w.store).2 }) := by
        simp [CompensateStep, hst, hc, hh, hsg, hcp]
      rw [hred]
      refine ⟨rfl, { st with error := er, status := Status.compensated, updatedAt := now }, ?_, rfl, rfl, rfl⟩
      show aget stepID _ = _
      rw [← hid]
      exact aget_upsert_self _ _ _

/-- Witness for `compensateStep_spec` at a concrete completed step whose
compensation errors. -/
theorem compensateStep_spec_witness :
    (CompensateStep [("b", handlerCompW)] (100 : Int) 2 worldCompW).1 =
      none ∧
    ∃ stF, GetStep 2
        (CompensateStep [("b", handlerCompW)] (100 : Int) 2
          worldCompW).2.store = some stF ∧
      stF.status = Status.compensated ∧ stF.updatedAt = 100 ∧
      stF.error =
        (match handlerCompW.compensate
            (mergeInto (mergeInto [] sagaCompW.data) stepCompW.data) with
         | some er => er
         | none => stepCompW.error) :=
  (compensateStep_spec [("b", handlerCompW)] 100 2 worldCompW stepCompW
    rfl).2 handlerCompW sagaCompW rfl rfl rfl rfl

/-- Witness for `continueOrComplete_spec`: with one completed step out of
two, the next step's execution message is published. -/
theorem continueOrComplete_spec_witness :
    continueOrComplete (7 : Int)
      { id := 10, name := "order", status := Status.pending,
        steps :=
          [{ id := 2, sagaID := 10, name := "b", status := Status.completed,
             data := [], error := "", startedAt := some 1, createdAt := 1,
             updatedAt := 1 },
           { id := 1, sagaID := 10, name := "a", status := Status.pending,
             data := [], error := "", startedAt := none, createdAt := 1,
             updatedAt := 1 }],
        data := [], error := "", createdAt := 1, updatedAt := 1 }
      { store := { sagas := [], steps := [] }, published := [], nextID := 0 } =
    publish "saga_events"
      { mtype := "step_execute", sagaID := 10, stepID := 1, data := [] }
      { store := { sagas := [], steps := [] }, published := [], nextID := 0 } :=
  ((continueOrComplete_spec 7 _ _).2.1 (by decide)).2

/-- C4 (amended): `StartSaga` builds one `Pending` step with empty data per
step name, in order, with pairwise-distinct fresh ids, persists the saga,
and returns it with a nil error (the reference storage's `SaveSaga` cannot
fail, so the error is always nil); when the step-name list is nonempty it
publishes exactly one `step_execute` message carrying the id of step 0,
and when the list is empty it publishes nothing. -/
theorem startSaga_spec (now : Int) (name : String) (stepNames : List String)
    (data : DataMap) (w : World) :
    (StartSaga now name stepNames data w).1 = none ∧
    (StartSaga now name stepNames data w).2.1.steps.map Step.name =
      stepNames ∧
    (∀ st ∈ (StartSaga now name stepNames data w).2.1.steps,
       st.status = Status.pending ∧ st.data = [] ∧
       st.sagaID = (StartSaga now name stepNames data w).2.1.id) ∧
    ((StartSaga now name stepNames data w).2.1.id ::
       (StartSaga now name stepNames data w).2.1.steps.map Step.id).Nodup ∧
    GetSaga (StartSaga now name stepNames data w).2.1.id
        (StartSaga now name stepNames data w).2.2.store =
      some (StartSaga now name stepNames data w).2.1 ∧
    (∀ h0 : 0 < (StartSaga now name stepNames data w).2.1.steps.length,
       (StartSaga now name stepNames data w).2.2.published =
         w.published ++ [("saga_events",
           { mtype := "step_execute",
             sagaID := (StartSaga now name stepNames data w).2.1.id,
             stepID := ((StartSaga now name stepNames data w).2.1.steps.get
               ⟨0, h0⟩).id,
             data := data })]) ∧
    (stepNames = [] →
       (StartSaga now name stepNames data w).2.2.published = w.published) := by
  cases stepNames with
  | nil =>
    refine ⟨rfl, rfl, ?_, ?_, aget_upsert_self _ _ _, ?_, fun _ => rfl⟩
    · intro st hst
      rw [show (StartSaga now name ([] : List String) data w).2.1.steps =
          ([] : List Step) from rfl] at hst
      exact absurd hst (List.not_mem_nil st)
    · rw [show (StartSaga now name ([] : List String) data w).2.1.steps =
          ([] : List Step) from rfl,
        show (StartSaga now name ([] : List String) data w).2.1.id =
          w.nextID from rfl]
      simp
    · intro h0
      rw [show (StartSaga now name ([] : List String) data w).2.1.steps =
          ([] : List Step) from rfl] at h0
      exact absurd h0 (by simp)
  | cons n0 rest =>
    have hsteps : (StartSaga now name (n0 :: rest) data w).2.1.steps =
        (mkSteps now w.nextID (w.nextID + 1) (n0 :: rest)).map
          (touchStep now) := rfl
    have hid : (StartSaga now name (n0 :: rest) data w).2.1.id =
        w.nextID := rfl
    refine ⟨rfl, ?_, ?_, ?_, aget_upsert_self _ _ _, ?_, ?_⟩
    · rw [hsteps, List.map_map,
        show Step.name ∘ touchStep now = Step.name from funext fun _ => rfl,
        mkSteps_map_name]
    · intro st hst
      rw [hsteps] at hst
      rcases List.mem_map.mp hst with ⟨q, hq, hqe⟩
      have h2 := mkSteps_mem now w.nextID (n0 :: rest) (w.nextID + 1) q hq
      subst hqe
      rw [hid]
      exact ⟨h2.1, by simp [touchStep, h2.2.1], h2.2.2.1⟩
    · rw [hsteps, hid, List.map_map,
        show Step.id ∘ touchStep now = Step.id from funext fun _ => rfl,
        List.nodup_cons]
      refine ⟨?_, mkSteps_id_nodup now w.nextID (n0 :: rest) (w.nextID + 1)⟩
      intro hmem
      rcases List.mem_map.mp hmem with ⟨q, hq, hqid⟩
      have hle :=
        (mkSteps_mem now w.nextID (n0 :: rest) (w.nextID + 1) q hq).2.2.2
      rw [hqid] at hle
      exact Nat.not_succ_le_self w.nextID hle
    · intro h0
      rfl
    · intro he
      exact absurd he (List.cons_ne_nil n0 rest)

/-- Witness for `startSaga_spec`: the publish clause at a concrete
one-step saga. -/
theorem startSaga_spec_witness :
    (StartSaga (3 : Int) "s" ["x"] []
      { store := { sagas := [], steps := [] }, published := [],
        nextID := 0 }).2.2.published =
      [("saga_events",
        { mtype := "step_execute", sagaID := 0, stepID := 1, data := [] })] :=
  (startSaga_spec 3 "s" ["x"] []
    { store := { sagas := [], steps := [] }, published := [],
      nextID := 0 }).2.2.2.2.2.1 (by decide)

/-- C4 counterexample: with an empty step-name list `StartSaga` publishes
no message at all, so the claimed unconditional publication of a
`step_execute` message for step 0 fails at `stepNames = []`. -/
theorem startSaga_empty_publishes_nothing :
    (StartSaga (0 : Int) "s" [] []
      { store := { sagas := [], steps := [] }, published := [],
        nextID := 0 }).2.2.published = [] := by decide

/-- C8 (amended): the zero-step guard lives in `Builder.Execute` alone:
with no steps added it returns the "saga must have at least one step"
error and registers nothing, persists nothing and publishes nothing, while
`StartSaga` called directly with an empty `stepNames` slice is not
rejected: it returns a nil error, persists the empty saga and publishes
no message. -/
theorem zeroSteps_rejection_spec (b : Builder)
    (handlers : List (String × Handler)) (now : Int) (w : World)
    (name : String) (data : DataMap)
    (hb : b.steps = []) :
    BuilderExecute b handlers now w =
      (some "saga must have at least one step", none, handlers, w) ∧
    (StartSaga now name [] data w).1 = none ∧
    GetSaga (StartSaga now name [] data w).2.1.id
        (StartSaga now name [] data w).2.2.store =
      some (StartSaga now name [] data w).2.1 ∧
    (StartSaga now name [] data w).2.2.published = w.published := by
  refine ⟨?_, rfl, aget_upsert_self _ _ _, rfl⟩
  simp [BuilderExecute, hb]

/-- Witness for `zeroSteps_rejection_spec` at a concrete empty builder. -/
theorem zeroSteps_rejection_spec_witness :
    BuilderExecute { name := "s", steps := [], data := [] } [] (0 : Int)
        { store := { sagas := [], steps := [] }, published := [],
          nextID := 0 } =
      (some "saga must have at least one step", none, [],
        { store := { sagas := [], steps := [] }, published := [],
          nextID := 0 }) :=
  (zeroSteps_rejection_spec { name := "s", steps := [], data := [] } []
    0
    { store := { sagas := [], steps := [] }, published := [], nextID := 0 }
    "s" [] rfl).1

/-- C8 counterexample: `StartSaga` on the empty step list returns a nil
error and persists a saga, contradicting the claim that such a
construction returns a non-nil error with no saga persisted. -/
theorem zeroSteps_startSaga_not_rejected :
    (StartSaga (0 : Int) "s" [] []
      { store := { sagas := [], steps := [] }, published := [],
        nextID := 0 }).1 = none ∧
    GetSaga 0 (StartSaga (0 : Int) "s" [] []
      { store := { sagas := [], steps := [] }, published := [],
        nextID := 0 }).2.2.store ≠ none := by decide

/-! ### Recovery-loop lemmas -/

theorem recoverOne_fst (pubErr : Message → Option String) (now : Int)
    (acc : MemoryStorage × List (String × Message)) (st : Step) :
    (recoverOne pubErr now acc st).1 =
      if st.status = Status.processing then
        (UpdateStep now
          { st with status := Status.pending, startedAt := none } acc.1).2
      else acc.1 := by
  rcases h : pubErr (recoverMsg st) with _ | e <;> simp [recoverOne, h]

theorem recoverOne_snd (pubErr : Message → Option String) (now : Int)
    (acc : MemoryStorage × List (String × Message)) (st : Step) :
    (recoverOne pubErr now acc st).2 =
      (match pubErr (recoverMsg st) with
       | some _ => acc.2
       | none => acc.2 ++ [("saga_events", recoverMsg st)]) := by
  rcases h : pubErr (recoverMsg st) with _ | e <;> simp [recoverOne, h]

theorem recoverFold_fst (pubErr : Message → Option String) (now : Int)
    (l : List Step) :
    ∀ (m : MemoryStorage) (msgs : List (String × Message)),
      (l.foldl (recoverOne pubErr now) (m, msgs)).1 = resetStuck now l m := by
  induction l with
  | nil => intro m msgs; rfl
  | cons q rest ih =>
    intro m msgs
    rw [List.foldl_cons]
    calc (List.foldl (recoverOne pubErr now)
            (recoverOne pubErr now (m, msgs) q) rest).1
        = resetStuck now rest (recoverOne pubErr now (m, msgs) q).1 :=
          ih (recoverOne pubErr now (m, msgs) q).1
            (recoverOne pubErr now (m, msgs) q).2
      _ = resetStuck now rest
            (if q.status = Status.processing then
              (UpdateStep now
                { q with status := Status.pending, startedAt := none } m).2
            else m) := by rw [recoverOne_fst]
      _ = resetStuck now (q :: rest) m := rfl

theorem recoverFold_snd (pubErr : Message → Option String) (now : Int)
    (l : List Step) :
    ∀ (m : MemoryStorage) (msgs : List (String × Message)),
      (l.foldl (recoverOne pubErr now) (m, msgs)).2 =
        msgs ++ l.filterMap (fun st =>
          match pubErr (recoverMsg st) with
          | some _ => none
          | none => some ("saga_events", recoverMsg st)) := by
  induction l with
  | nil => intro m msgs; simp
  | cons q rest ih =>
    intro m msgs
    rw [List.foldl_cons, List.filterMap_cons]
    have hstep := ih (recoverOne pubErr now (m, msgs) q).1
      (recoverOne pubErr now (m, msgs) q).2
    have hsnd := recoverOne_snd pubErr now (m, msgs) q
    rcases hq : pubErr (recoverMsg q) with _ | e
    · rw [hq] at hsnd
      exact hstep.trans (by rw [hsnd]; try simp)
    · rw [hq] at hsnd
      exact hstep.trans (by rw [hsnd]; try simp)

theorem resetStuck_aget_ne (now : Int) (l : List Step) :
    ∀ (m : MemoryStorage) (k : Nat), (∀ q ∈ l, q.id ≠ k) →
      aget k (resetStuck now l m).steps = aget k m.steps := by
  induction l with
  | nil => intro m k _; rfl
  | cons q rest ih =>
    intro m k h
    by_cases hs : q.status = Status.processing
    · rw [show resetStuck now (q :: rest) m =
          resetStuck now rest
            ((UpdateStep now
              { q with status := Status.pending, startedAt := none } m).2)
          from by simp [resetStuck, hs]]
      rw [ih _ k (fun p hp => h p (List.mem_cons_of_mem _ hp))]
      exact aget_upsert_ne _ _ (h q (List.mem_cons_self _ _))
    · rw [show resetStuck now (q :: rest) m = resetStuck now rest m
          from by simp [resetStuck, hs]]
      exact ih _ k (fun p hp => h p (List.mem_cons_of_mem _ hp))

theorem resetStuck_aget_mem (now : Int) (l : List Step)
    (hnd : (l.map Step.id).Nodup) :
    ∀ (m : MemoryStorage) (st : Step), st ∈ l →
      ((st.status = Status.processing →
         aget st.id (resetStuck now l m).steps =
           some { st with status := Status.pending, startedAt := none, updatedAt := now }) ∧
       (st.status = Status.pending →
         aget st.id (resetStuck now l m).steps = aget st.id m.steps)) := by
  induction l with
  | nil => intro m st h; simp at h
  | cons q rest ih =>
    intro m st h
    rcases List.mem_cons.mp h with h1 | h1
    · subst h1
      have hrest : ∀ p ∈ rest, p.id ≠ st.id := by
        intro p hp hc
        exact (List.nodup_cons.mp hnd).1 (hc ▸ List.mem_map_of_mem Step.id hp)
      constructor
      · intro hs
        rw [show resetStuck now (st :: rest) m =
            resetStuck now rest
              ((UpdateStep now
                { st with status := Status.pending, startedAt := none } m).2)
            from by simp [resetStuck, hs]]
        rw [resetStuck_aget_ne now rest _ st.id hrest]
        exact aget_upsert_self _ _ _
      · intro hs
        rw [show resetStuck now (st :: rest) m = resetStuck now rest m
            from by simp [resetStuck, hs]]
        exact resetStuck_aget_ne now rest m st.id hrest
    · have hq : q.id ≠ st.id := by
        intro hc
        exact (List.nodup_cons.mp hnd).1 (hc ▸ List.mem_map_of_mem Step.id h1)
      have ihm := ih (List.nodup_cons.mp hnd).2
      by_cases hs : q.status = Status.processing
      · rw [show resetStuck now (q :: rest) m =
            resetStuck now rest
              ((UpdateStep now
                { q with status := Status.pending, startedAt := none } m).2)
            from by simp [resetStuck, hs]]
        constructor
        · intro hp
          exact (ihm _ st h1).1 hp
        · intro hp
          rw [(ihm _ st h1).2 hp]
          exact aget_upsert_ne _ _ hq
      · rw [show resetStuck now (q :: rest) m = resetStuck now rest m
            from by simp [resetStuck, hs]]
        exact ihm m st h1

/-- C6: one recovery tick processes every stuck step: with the reference
pub/sub (whose publish never fails) exactly one `step_execute` message per
stuck step is published, in scan order, carrying the step's id and saga id;
each `Processing` stuck step is persisted back as `Pending` with
`startedAt` cleared; each `Pending` stuck step's stored record is left
unchanged; and the storage effects and the processing of every step are
independent of publish failures on other steps. -/
theorem recoverStuckSteps_spec (pubErr : Message → Option String)
    (now timeout : Int) (w : World)
    (hnd : ((GetStuckSteps now timeout w.store).map Step.id).Nodup) :
    ((recoverStuckSteps (fun _ => none) now timeout w).published =
       w.published ++ (GetStuckSteps now timeout w.store).map
         (fun st => ("saga_events", recoverMsg st))) ∧
    ((recoverStuckSteps pubErr now timeout w).store =
       (recoverStuckSteps (fun _ => none) now timeout w).store) ∧
    (∀ st ∈ GetStuckSteps now timeout w.store,
       (st.status = Status.processing →
          GetStep st.id (recoverStuckSteps pubErr now timeout w).store =
            some { st with status := Status.pending, startedAt := none, updatedAt := now }) ∧
       (st.status = Status.pending →
          GetStep st.id (recoverStuckSteps pubErr now timeout w).store =
            GetStep st.id w.store)) ∧
    (∀ st ∈ GetStuckSteps now timeout w.store,
       pubErr (recoverMsg st) = none →
       ("saga_events", recoverMsg st) ∈
         (recoverStuckSteps pubErr now timeout w).published) := by
  have hstore : ∀ pe, (recoverStuckSteps pe now timeout w).store =
      resetStuck now (GetStuckSteps now timeout w.store) w.store := by
    intro pe
    show (List.foldl (recoverOne pe now) (w.store, [])
      (GetStuckSteps now timeout w.store)).1 = _
    exact recoverFold_fst pe now _ w.store []
  have hpub : ∀ pe, (recoverStuckSteps pe now timeout w).published =
      w.published ++ (GetStuckSteps now timeout w.store).filterMap
        (fun st =>
          match pe (recoverMsg st) with
          | some _ => none
          | none => some ("saga_events", recoverMsg st)) := by
    intro pe
    show w.published ++ (List.foldl (recoverOne pe now) (w.store, [])
      (GetStuckSteps now timeout w.store)).2 = _
    rw [recoverFold_snd pe now _ w.store []]
    simp
  refine ⟨?_, ?_, ?_, ?_⟩
  · rw [hpub]
    congr 1
    exact List.filterMap_eq_map _ ▸ rfl
  · rw [hstore, hstore]
  · intro st hst
    constructor
    · intro hs
      show aget st.id (recoverStuckSteps pubErr now timeout w).store.steps = _
      rw [hstore]
      exact (resetStuck_aget_mem now _ hnd w.store st hst).1 hs
    · intro hs
      show aget st.id (recoverStuckSteps pubErr now timeout w).store.steps = _
      rw [hstore]
      exact (resetStuck_aget_mem now _ hnd w.store st hst).2 hs
  · intro st hst hpe
    rw [hpub]
    refine List.mem_append_right _ ?_
    refine List.mem_filterMap.mpr ⟨st, hst, ?_⟩
    rw [hpe]

/-- Stuck processing step (witness fixture for recovery). -/
def stepStuckProc : Step :=
  { id := 3, sagaID := 10, name := "c", status := Status.processing,
    data := [], error := "", startedAt := some 1, createdAt := 1,
    updatedAt := 1 }

/-- World holding `stepStuckProc` (witness fixture). -/
def worldStuck : World :=
  { store := { sagas := [], steps := [(3, stepStuckProc)] },
    published := [], nextID := 0 }

/-- Witness for `recoverStuckSteps_spec` at a concrete stuck processing
step. -/
theorem recoverStuckSteps_spec_witness :
    (recoverStuckSteps (fun _ => none) (100 : Int) 10 worldStuck).published =
      worldStuck.published ++
        (GetStuckSteps 100 10 worldStuck.store).map
          (fun st => ("saga_events", recoverMsg st)) :=
  (recoverStuckSteps_spec (fun _ => none) 100 10 worldStuck (by decide)).1

/-! ### Forward error path (ExecuteStep with a failing handler) -/

theorem UpdateStep_fst (now : Int) (st0 : Step) (m : MemoryStorage) :
    (UpdateStep now st0 m).1 = { st0 with updatedAt := now } := rfl

theorem startCompensation_spec (now : Int) (saga : Saga) (w : World) :
    startCompensation now saga w =
      { store :=
          (SaveSaga now { saga with status := Status.failed } w.store).2,
        published := w.published ++
          (((saga.steps.map (touchStep now)).reverse.filter
              (fun st => st.status = Status.completed)).map
            (compMsg saga.id saga.data)),
        nextID := w.nextID } := by
  simp only [startCompensation]
  rw [foldl_publishCompleted]
  rfl

theorem compMsgs_touch (now : Int) (sid : Nat) (sdata : DataMap)
    (l : List Step) :
    ((l.map (touchStep now)).reverse.filter
        (fun st => st.status = Status.completed)).map (compMsg sid sdata) =
      (l.reverse.filter (fun st => st.status = Status.completed)).map
        (compMsg sid sdata) := by
  rw [← List.map_reverse, filter_status_map_touch, List.map_map]
  congr 1

/-- C1: when a `Pending` step's registered handler fails, `ExecuteStep`
persists the step as `Failed` with the handler's error text, persists the
saga as `Failed`, publishes exactly one `step_compensate` message per
`Completed` step of the saga walking from the last index to the first
(none for the failed step itself nor for steps in any other status), and
returns nil instead of the handler error. -/
theorem executeStep_handlerError_spec
    (handlers : List (String × Handler)) (now : Int) (stepID : Nat)
    (w : World) (st : Step) (h : Handler) (saga : Saga) (err : String)
    (hst : GetStep stepID w.store = some st)
    (hid : st.id = stepID)
    (hp : st.status = Status.pending)
    (hh : aget st.name handlers = some h)
    (hsg : GetSaga st.sagaID w.store = some saga)
    (hsid : saga.id = st.sagaID)
    (hmem : ∃ q ∈ saga.steps, q.id = st.id)
    (hnd : (saga.steps.map Step.id).Nodup)
    (hex : h.execute (mergeInto (mergeInto [] saga.data) st.data) =
      Except.error err) :
    (ExecuteStep handlers now stepID w).1 = none ∧
    (∃ stF, GetStep stepID (ExecuteStep handlers now stepID w).2.store =
        some stF ∧ stF.status = Status.failed ∧ stF.error = err) ∧
    (∃ sgF, GetSaga st.sagaID (ExecuteStep handlers now stepID w).2.store =
        some sgF ∧ sgF.status = Status.failed ∧ sgF.updatedAt = now) ∧
    (ExecuteStep handlers now stepID w).2.published =
      w.published ++
        ((replaceFirstStep (failedStep now err st) saga.steps).reverse.filter
            (fun q => q.status = Status.completed)).map
          (compMsg saga.id saga.data) ∧
    (∀ q ∈ (replaceFirstStep (failedStep now err st) saga.steps).reverse.filter
        (fun q => q.status = Status.completed), q.id ≠ stepID) := by
  have hget : GetSaga st.sagaID
      (UpdateStep now
        { st with status := Status.processing, startedAt := some now }
        w.store).2 =
      some (updateStepInSaga now
        { st with status := Status.processing, startedAt := some now, updatedAt := now } saga) :=
    GetSaga_UpdateStep_self now
      { st with status := Status.processing, startedAt := some now } hsg
  have hrun : ExecuteStep handlers now stepID w =
      (none, startCompensation now
        (updateStepInSaga now (failedStep now err st)
          (updateStepInSaga now
            { st with status := Status.processing, startedAt := some now, updatedAt := now } saga))
        { w with store :=
            (UpdateStep now (failedStep now err st)
              (UpdateStep now
                { st with status := Status.processing, startedAt := some now } w.store).2).2 }) := by
    simp [ExecuteStep, hst, hp, hh, hget, hex, UpdateStep_fst, failedStep,
      updateStepInSaga]
  have hsteps2 : (updateStepInSaga now (failedStep now err st)
      (updateStepInSaga now
        { st with status := Status.processing, startedAt := some now, updatedAt := now } saga)).steps =
      replaceFirstStep (failedStep now err st) saga.steps := by
    show replaceFirstStep (failedStep now err st)
      (replaceFirstStep _ saga.steps) = _
    exact replaceFirstStep_collapse saga.steps rfl
  have hfin : (ExecuteStep handlers now stepID w).2 =
      startCompensation now
        (updateStepInSaga now (failedStep now err st)
          (updateStepInSaga now
            { st with status := Status.processing, startedAt := some now, updatedAt := now } saga))
        { w with store :=
            (UpdateStep now (failedStep now err st)
              (UpdateStep now
                { st with status := Status.processing, startedAt := some now } w.store).2).2 } := by
    rw [hrun]
  refine ⟨?_, ?_, ?_, ?_, ?_⟩
  · rw [hrun]
  · refine ⟨touchStep now (failedStep now err st), ?_, rfl, rfl⟩
    rw [hfin, startCompensation_spec]
    show aget stepID _ = _
    rw [← hid]
    have hmem2 : touchStep now (failedStep now err st) ∈
        ((updateStepInSaga now (failedStep now err st)
          (updateStepInSaga now
            { st with status := Status.processing, startedAt := some now, updatedAt := now } saga)).steps.map (touchStep now)) := by
      rw [hsteps2]
      exact List.mem_map_of_mem _ (replaceFirstStep_mem hmem)
    have hnd2 : (((updateStepInSaga now (failedStep now err st)
        (updateStepInSaga now
          { st with status := Status.processing, startedAt := some now, updatedAt := now } saga)).steps.map (touchStep now)).map
        Step.id).Nodup := by
      rw [hsteps2, List.map_map,
        show Step.id ∘ touchStep now = Step.id from funext fun _ => rfl,
        replaceFirstStep_map_id]
      exact hnd
    exact foldl_upsert_aget_mem _ hnd2 hmem2
  · refine ⟨(SaveSaga now
      { (updateStepInSaga now (failedStep now err st)
          (updateStepInSaga now
            { st with status := Status.processing, startedAt := some now, updatedAt := now } saga)) with status := Status.failed }
      (UpdateStep now (failedStep now err st)
        (UpdateStep now
          { st with status := Status.processing, startedAt := some now }
          w.store).2).2).1, ?_, rfl, rfl⟩
    rw [hfin, startCompensation_spec]
    show aget st.sagaID _ = _
    rw [← hsid]
    exact aget_upsert_self _ _ _
  · rw [hfin, startCompensation_spec]
    show _ ++ _ = _
    rw [compMsgs_touch, hsteps2]
    rfl
  · intro q hq hqid
    have hq1 : q ∈ replaceFirstStep (failedStep now err st) saga.steps :=
      List.mem_reverse.mp (List.mem_filter.mp hq).1
    have hqc : q.status = Status.completed := by
      have h2 := (List.mem_filter.mp hq).2
      simpa using h2
    have hqf : q = failedStep now err st :=
      replaceFirstStep_id_unique hnd q hq1 (hqid.trans hid.symm)
    rw [hqf] at hqc
    simp [failedStep] at hqc

/-- Witness for `executeStep_handlerError_spec`: the published
compensation messages at a concrete two-step saga whose second step
fails. -/
theorem executeStep_handlerError_spec_witness :
    (ExecuteStep [("a", handlerFailW)] (100 : Int) 1 worldExecW).2.published =
      worldExecW.published ++
        ((replaceFirstStep (failedStep 100 "boom" stepExecW)
            sagaExecW.steps).reverse.filter
          (fun q => q.status = Status.completed)).map
          (compMsg sagaExecW.id sagaExecW.data) :=
  (executeStep_handlerError_spec [("a", handlerFailW)] 100 1 worldExecW
    stepExecW handlerFailW sagaExecW "boom" rfl rfl rfl rfl rfl rfl
    (by decide) (by decide) rfl).2.2.2.1

/-! ### The saga-level error field is never written -/

theorem SaveSaga_err (now : Int) (saga : Saga) (m : MemoryStorage)
    (hm : sagasErrorEmpty m) (hs : saga.error = "") :
    sagasErrorEmpty (SaveSaga now saga m).2 := by
  intro p hp
  have hp2 : p ∈ upsert (SaveSaga now saga m).1.id (SaveSaga now saga m).1
      m.sagas := hp
  exact upsert_forall _ _ hm
    (show (SaveSaga now saga m).1.error = "" from hs) p hp2

theorem UpdateStep_err (now : Int) (st0 : Step) (m : MemoryStorage)
    (hm : sagasErrorEmpty m) : sagasErrorEmpty (UpdateStep now st0 m).2 := by
  intro p hp
  have heq : (UpdateStep now st0 m).2.sagas =
      (match aget st0.sagaID m.sagas with
       | some s => upsert st0.sagaID
           (updateStepInSaga now { st0 with updatedAt := now } s) m.sagas
       | none => m.sagas) := rfl
  rw [heq] at hp
  rcases hms : aget st0.sagaID m.sagas with _ | s
  · rw [hms] at hp
    exact hm p hp
  · rw [hms] at hp
    have hse : (updateStepInSaga now { st0 with updatedAt := now } s).error =
        "" := hm _ (aget_mem hms)
    have hp2 : p ∈ upsert st0.sagaID
        (updateStepInSaga now { st0 with updatedAt := now } s) m.sagas := hp
    exact upsert_forall _ _ hm hse p hp2

theorem resetStuck_err (now : Int) (l : List Step) :
    ∀ (m : MemoryStorage), sagasErrorEmpty m →
      sagasErrorEmpty (resetStuck now l m) := by
  induction l with
  | nil => intro m hm; exact hm
  | cons q rest ih =>
    intro m hm
    by_cases hs : q.status = Status.processing
    · rw [show resetStuck now (q :: rest) m =
          resetStuck now rest
            ((UpdateStep now
              { q with status := Status.pending, startedAt := none } m).2)
          from by simp [resetStuck, hs]]
      exact ih _ (UpdateStep_err _ _ _ hm)
    · rw [show resetStuck now (q :: rest) m = resetStuck now rest m
          from by simp [resetStuck, hs]]
      exact ih _ hm

theorem continueOrComplete_err (now : Int) (saga : Saga) (w : World)
    (hm : sagasErrorEmpty w.store) (hs : saga.error = "") :
    sagasErrorEmpty (continueOrComplete now saga w).store := by
  by_cases hc : completedPrefixLen saga.steps < saga.steps.length
  · rw [continueOrComplete, dif_pos hc]
    exact hm
  · rw [continueOrComplete, dif_neg hc]
    exact SaveSaga_err _ _ _ hm hs

theorem startCompensation_err (now : Int) (saga : Saga) (w : World)
    (hm : sagasErrorEmpty w.store) (hs : saga.error = "") :
    sagasErrorEmpty (startCompensation now saga w).store := by
  rw [startCompensation_spec]
  exact SaveSaga_err _ _ _ hm hs

theorem ExecuteStep_err (handlers : List (String × Handler)) (now : Int)
    (stepID : Nat) (w : World) (hm : sagasErrorEmpty w.store) :
    sagasErrorEmpty (ExecuteStep handlers now stepID w).2.store := by
  rcases hst : GetStep stepID w.store with _ | st
  · have hr : ExecuteStep handlers now stepID w =
        (some "failed to get step: step not found", w) := by
      simp [ExecuteStep, hst]
    rw [hr]
    exact hm
  · by_cases hp : st.status = Status.pending
    · rcases hh : aget st.name handlers with _ | hdl
      · have hr : ExecuteStep handlers now stepID w =
            (some ("no handler for step: " ++ st.name), w) := by
          simp [ExecuteStep, hst, hp, hh]
        rw [hr]
        exact hm
      · have hm1 : sagasErrorEmpty
            (UpdateStep now
              { st with status := Status.processing, startedAt := some now }
              w.store).2 := UpdateStep_err _ _ _ hm
        rcases hsg : GetSaga st.sagaID
            (UpdateStep now
              { st with status := Status.processing, startedAt := some now }
              w.store).2 with _ | saga
        · have hr : ExecuteStep handlers now stepID w =
              (some "failed to get saga: saga not found",
               { w with store :=
                  (UpdateStep now
                    { st with status := Status.processing, startedAt := some now } w.store).2 }) := by
            simp [ExecuteStep, hst, hp, hh, hsg]
          rw [hr]
          exact hm1
        · have hsage : saga.error = "" := hm1 _ (aget_mem hsg)
          rcases hex : hdl.execute (mergeInto (mergeInto [] saga.data) st.data)
            with er | d2
          · have hgoal : sagasErrorEmpty (ExecuteStep handlers now stepID
                w).2.store := by
              simp only [ExecuteStep, hst, hh]
              simp only [hp, ne_eq]
              simp [hsg, hex, UpdateStep_fst]
              refine startCompensation_err _ _ _ ?_ ?_
              · exact UpdateStep_err _ _ _ (UpdateStep_err _ _ _ hm)
              · exact hsage
            exact hgoal
          · have hgoal : sagasErrorEmpty (ExecuteStep handlers now stepID
                w).2.store := by
              simp only [ExecuteStep, hst, hh]
              simp only [hp, ne_eq]
              simp [hsg, hex, UpdateStep_fst]
              refine continueOrComplete_err _ _ _ ?_ ?_
              · refine SaveSaga_err _ _ _ ?_ ?_
                · exact UpdateStep_err _ _ _ (UpdateStep_err _ _ _ hm)
                · exact hsage
              · exact hsage
            exact hgoal
    · have hr : ExecuteStep handlers now stepID w = (none, w) := by
        simp [ExecuteStep, hst, hp]
      rw [hr]
      exact hm

theorem CompensateStep_err (handlers : List (String × Handler)) (now : Int)
    (stepID : Nat) (w : World) (hm : sagasErrorEmpty w.store) :
    sagasErrorEmpty (CompensateStep handlers now stepID w).2.store := by
  rcases hst : GetStep stepID w.store with _ | st
  · have hr : CompensateStep handlers now stepID w =
        (some "failed to get step: step not found", w) := by
      simp [CompensateStep, hst]
    rw [hr]
    exact hm
  · by_cases hc : st.status = Status.completed
    · rcases hh : aget st.name handlers with _ | hdl
      · have hr : CompensateStep handlers now stepID w =
            (some ("no handler for step: " ++ st.name), w) := by
          simp [CompensateStep, hst, hc, hh]
        rw [hr]
        exact hm
      · rcases hsg : GetSaga st.sagaID w.store with _ | saga
        · have hr : CompensateStep handlers now stepID w =
              (some "failed to get saga: saga not found", w) := by
            simp [CompensateStep, hst, hc, hh, hsg]
          rw [hr]
          exact hm
        · rcases hcp : hdl.compensate
              (mergeInto (mergeInto [] saga.data) st.data) with _ | er
          · have hgoal : sagasErrorEmpty (CompensateStep handlers now stepID
                w).2.store := by
              simp [CompensateStep, hst, hc, hh, hsg, hcp]
              exact UpdateStep_err _ _ _ hm
            exact hgoal
          · have hgoal : sagasErrorEmpty (CompensateStep handlers now stepID
                w).2.store := by
              simp [CompensateStep, hst, hc, hh, hsg, hcp]
              exact UpdateStep_err _ _ _ hm
            exact hgoal
    · have hr : CompensateStep handlers now stepID w = (none, w) := by
        simp [CompensateStep, hst, hc]
      rw [hr]
      exact hm

theorem StartSaga_err (now : Int) (name : String) (stepNames : List String)
    (data : DataMap) (w : World) (hm : sagasErrorEmpty w.store) :
    sagasErrorEmpty (StartSaga now name stepNames data w).2.2.store := by
  cases stepNames with
  | nil => exact SaveSaga_err _ _ _ hm rfl
  | cons n0 rest => exact SaveSaga_err _ _ _ hm rfl

theorem recoverStuckSteps_err (pubErr : Message → Option String)
    (now timeout : Int) (w : World) (hm : sagasErrorEmpty w.store) :
    sagasErrorEmpty (recoverStuckSteps pubErr now timeout w).store := by
  have hstore : (recoverStuckSteps pubErr now timeout w).store =
      resetStuck now (GetStuckSteps now timeout w.store) w.store := by
    show (List.foldl (recoverOne pubErr now) (w.store, [])
      (GetStuckSteps now timeout w.store)).1 = _
    exact recoverFold_fst pubErr now _ w.store []
  rw [hstore]
  exact resetStuck_err now _ w.store hm

/-- C10: starting from any state whose stored sagas all carry an empty
saga-level error field, every orchestrator operation — saga creation, the
forward path (including the failure path that marks the saga `Failed`),
the compensation path and the recovery tick — leaves every stored saga's
error field empty: the handler error text is recorded only on the failed
step, and a `Failed` saga has an empty error string. -/
theorem sagaError_never_written
    (handlers : List (String × Handler)) (now timeout : Int) (stepID : Nat)
    (name : String) (stepNames : List String) (data : DataMap)
    (pubErr : Message → Option String) (w : World)
    (hw : sagasErrorEmpty w.store) :
    sagasErrorEmpty (StartSaga now name stepNames data w).2.2.store ∧
    sagasErrorEmpty (ExecuteStep handlers now stepID w).2.store ∧
    sagasErrorEmpty (CompensateStep handlers now stepID w).2.store ∧
    sagasErrorEmpty (recoverStuckSteps pubErr now timeout w).store ∧
    (∀ p ∈ w.store.sagas, p.2.status = Status.failed → p.2.error = "") :=
  ⟨StartSaga_err now name stepNames data w hw,
   ExecuteStep_err handlers now stepID w hw,
   CompensateStep_err handlers now stepID w hw,
   recoverStuckSteps_err pubErr now timeout w hw,
   fun p hp _ => hw p hp⟩

/-- Witness for `sagaError_never_written`: the failing forward path at the
concrete two-step saga keeps the saga-level error empty. -/
theorem sagaError_never_written_witness :
    sagasErrorEmpty
      (ExecuteStep [("a", handlerFailW)] (100 : Int) 1 worldExecW).2.store :=
  (sagaError_never_written [("a", handlerFailW)] 100 10 1 "n" [] []
    (fun _ => none) worldExecW (by unfold sagasErrorEmpty; decide)).2.1

end SagaGo
